import Mathlib

/-!
Verification model of the stack-deployment orchestration engine
(`deploy-stack.ts` and `asset-publishing.ts`): the skip-deploy decision
(`canSkipDeploy`, `compareTags`, `changeIsLambdaCode`), the body-parameter
sizing (`makeBodyParameter`), and the orchestration flow (`deployStack`)
with its remote calls made observable as a recorded trace.

JavaScript values flowing through the engine (template documents, diff
payloads) are modelled by a first-order JSON document type; JavaScript
semantics relevant to the source (textual `JSON.stringify` comparison,
`for..in` enumeration, first-occurrence `String.replace`, substring
`indexOf`, property access on `undefined` throwing a TypeError) are
embedded explicitly.  External collaborators that are not part of the
sources (the diff evaluator, the parameter reconciler, the remote control
plane) enter as oracle inputs: the values their calls return during one run.
-/

/-! ## JSON documents (JavaScript values) -/

mutual
/-- A JSON document / plain JavaScript value: the template documents and
diff payloads the engine manipulates. Objects keep their key order, as
JavaScript objects do. -/
inductive JsonVal where
  | jnull : JsonVal
  | jbool (b : Bool) : JsonVal
  | jnum (n : Int) : JsonVal
  | jstr (s : String) : JsonVal
  | jarr (xs : JsonList) : JsonVal
  | jobj (fields : JsonFields) : JsonVal
inductive JsonList where
  | nil : JsonList
  | cons (x : JsonVal) (xs : JsonList) : JsonList
inductive JsonFields where
  | nil : JsonFields
  | cons (k : String) (v : JsonVal) (fs : JsonFields) : JsonFields
end

/-- The ordered field list of an object, as a Lean list. -/
def JsonFields.toList : JsonFields → List (String × JsonVal)
  | .nil => []
  | .cons k v fs => (k, v) :: fs.toList

/-- Build an object field list from a Lean list (for concrete documents). -/
def JsonFields.ofList : List (String × JsonVal) → JsonFields
  | [] => .nil
  | (k, v) :: fs => .cons k v (JsonFields.ofList fs)

/-- Property read on an object field list: the first binding of the key
(JavaScript objects hold each key once). `none` is JavaScript `undefined`. -/
def JsonFields.get : JsonFields → String → Option JsonVal
  | .nil, _ => none
  | .cons k v fs, key => if k == key then some v else fs.get key

/-- Property read `value.key` on a JavaScript value: defined field of an
object, `undefined` (`none`) on a missing field or a non-object. -/
def JsonVal.getField : JsonVal → String → Option JsonVal
  | .jobj fs, key => fs.get key
  | _, _ => none

/-- The items of a JSON array as a Lean list. -/
def JsonList.toList : JsonList → List JsonVal
  | .nil => []
  | .cons x xs => x :: xs.toList

/-- The keys a JavaScript `for..in` loop enumerates on a value: an object's
own keys, an array's or string's indices, nothing on other primitives. -/
def keysForIn : JsonVal → List String
  | .jobj fs => fs.toList.map Prod.fst
  | .jarr xs => (List.range xs.toList.length).map toString
  | .jstr s => (List.range s.length).map toString
  | _ => []

/-- JSON string escaping for `JSON.stringify` (quote, backslash, newline;
other characters kept as they are). -/
def escapeChar (c : Char) : String :=
  if c = '\\' then "\\\\"
  else if c = '\"' then "\\\""
  else if c = '\n' then "\\n"
  else String.singleton c

/-- A JSON string literal: quotes around the escaped text. -/
def quoteString (s : String) : String :=
  "\"" ++ String.join (s.data.map escapeChar) ++ "\""

mutual
/-- `JSON.stringify` on our documents: objects render their fields in
stored key order, so two objects that differ only in key order render to
different text. -/
def jsonStringify : JsonVal → String
  | .jnull => "null"
  | .jbool true => "true"
  | .jbool false => "false"
  | .jnum n => toString n
  | .jstr s => quoteString s
  | .jarr xs => "[" ++ stringifyItems xs ++ "]"
  | .jobj fs => "\x7b" ++ stringifyFields fs ++ "\x7d"
def stringifyItems : JsonList → String
  | .nil => ""
  | .cons x .nil => jsonStringify x
  | .cons x xs => jsonStringify x ++ "," ++ stringifyItems xs
def stringifyFields : JsonFields → String
  | .nil => ""
  | .cons k v .nil => quoteString k ++ ":" ++ jsonStringify v
  | .cons k v fs => quoteString k ++ ":" ++ jsonStringify v ++ "," ++ stringifyFields fs
end

/-! ## String helpers with JavaScript semantics -/

/-- Whether `pat` occurs at the head of the character list. -/
def charsStartWith : List Char → List Char → Bool
  | [], _ => true
  | _ :: _, [] => false
  | p :: ps, c :: cs => p == c && charsStartWith ps cs

/-- Split a character list at the first occurrence of `pat`: the characters
before it and the characters after it, or nothing when `pat` does not
occur. -/
def splitFirst (pat : List Char) : List Char → Option (List Char × List Char)
  | [] => if pat.isEmpty then some ([], []) else none
  | c :: cs =>
    if charsStartWith pat (c :: cs) then some ([], (c :: cs).drop pat.length)
    else
      match splitFirst pat cs with
      | some pp => some (c :: pp.1, pp.2)
      | none => none

/-- JavaScript `s.replace(pat, repl)` with a string pattern: only the first
occurrence is replaced (`''.replace` inserts at the front). -/
def replaceFirst (s pat repl : String) : String :=
  if pat = "" then repl ++ s
  else
    match splitFirst pat.data s.data with
    | some pp => String.mk (pp.1 ++ repl.data ++ pp.2)
    | none => s

/-- JavaScript `hay.indexOf(pat) > -1`: substring containment, true for the
empty pattern. -/
def strContains (hay pat : String) : Bool :=
  if pat = "" then true else (splitFirst pat.data hay.data).isSome

/-! ## Tags and stack status -/

/-- A stack tag as passed to the control plane. -/
structure Tag where
  Key : String
  Value : String
deriving DecidableEq

/-- Compares two list of tags, returns true if identical
(`compareTags`, deploy-stack.ts lines 676-690): equal lengths, and every
left tag's key is found in the right list with the same value. The lookup
takes the first right tag with the key. -/
def compareTags (a b : List Tag) : Bool :=
  if a.length != b.length then false
  else a.all fun aTag =>
    match b.find? (fun tag => tag.Key == aTag.Key) with
    | none => false
    | some bTag => bTag.Value == aTag.Value

/-- Modelled from the spec: `StackStatus.isCreationFailure` (the status
class under `api/util/cloudformation` is not in the sources). The spec's
status variants name `CreateFailed` as the "previous creation failed"
state that triggers the delete-and-recreate cleanup. -/
def StackStatus.isCreationFailure (statusName : String) : Bool :=
  statusName == "CREATE_FAILED"

/-- Modelled from the spec: `StackStatus.isFailure` (the status class is
not in the sources). The spec's status variants list `CreateFailed` and
`UpdateFailed` as the failure statuses ("failed stacks are always
considered to need an attempted fix-up deploy"). -/
def StackStatus.isFailure (statusName : String) : Bool :=
  statusName == "CREATE_FAILED" || statusName == "UPDATE_FAILED"

/-- The remote stack state snapshot a lookup returns (the
`CloudFormationStack` wrapper is not in the sources; its fields are read
back exactly as the spec's RemoteStackState lists them: existence, status,
tags, outputs, termination protection, template body, stack id). -/
structure CloudFormationStack where
  stackName : String
  stackExists : Bool
  statusName : String
  stackId : String
  tags : List Tag
  outputs : List (String × String)
  terminationProtection : Bool
  template : JsonVal

/-- Modelled from the spec: the `exists=false` sentinel state
(`CloudFormationStack.doesNotExist`): a fresh non-existent stack view with
empty outputs and no template. -/
def CloudFormationStack.doesNotExist (stackName : String) : CloudFormationStack :=
  { stackName := stackName
    stackExists := false
    statusName := "NOT_FOUND"
    stackId := ""
    tags := []
    outputs := []
    terminationProtection := false
    template := .jobj .nil }

/-! ## The template diff as consumed by the classifier

The diff evaluator (`cfnDiff.diffTemplate`) is an external black box; the
engine consumes, per logical resource id, a resource difference carrying
the new resource definition (`Type`, `Metadata`) and the per-property
updates, each with its new value. -/

/-- The new resource definition inside a resource difference
(`change.newValue`): its `Type` string and its `Metadata` section, which a
synthesized resource may lack entirely (`none`). -/
structure ResourceChangeValue where
  typeName : String
  metadata : Option (List (String × String))

/-- One changed property inside a resource difference
(`propertyUpdates[key]`): the property's new value, `undefined` when the
property was removed. -/
structure PropertyDiff where
  newValue : Option JsonVal

/-- A resource difference as consumed by `changeIsLambdaCode`. -/
structure ResourceChange where
  newValue : Option ResourceChangeValue
  propertyUpdates : List (String × PropertyDiff)

/-- Returns true if the change to the resource is only a code change to a
Lambda function (`changeIsLambdaCode`, deploy-stack.ts lines 626-671):
no new value means false; `AWS::CDK::Metadata` resources always pass;
anything that is not `AWS::Lambda::Function` fails; for a Lambda function,
every property update must have a new value whose enumerated keys are all
`S3Bucket` or `S3Key`. -/
def changeIsLambdaCode (change : ResourceChange) : Bool :=
  match change.newValue with
  | none => false
  | some newValue =>
    if newValue.typeName == "AWS::CDK::Metadata" then true
    else if newValue.typeName != "AWS::Lambda::Function" then false
    else change.propertyUpdates.all fun keyDiff =>
      match keyDiff.2.newValue with
      | none => false
      | some v => (keysForIn v).all fun diffkey => diffkey == "S3Bucket" || diffkey == "S3Key"

/-- String lookup in an association list (a JavaScript string-valued object
read). -/
def lookupStr (m : List (String × String)) (key : String) : Option String :=
  (m.find? (fun kv => kv.1 == key)).map Prod.snd

/-- JavaScript object assignment `m[k] = v`: updates the binding in place
when the key exists, appends it otherwise. -/
def objAssign (m : List (String × String)) (k v : String) : List (String × String) :=
  if m.any (fun kv => kv.1 == k) then m.map (fun kv => if kv.1 == k then (k, v) else kv)
  else m ++ [(k, v)]

/-- The `forEachDifference` classification loop inside `canSkipDeploy`
(deploy-stack.ts lines 570-589), with the running `(lambdaOnly,
modifiedLambdaFunctions)` accumulator: a non-qualifying difference clears
`lambdaOnly`; a qualifying one reads `newValue.Metadata['aws:asset:path']`
— reading it on a difference whose new value has no `Metadata` section at
all throws a TypeError, which aborts the loop — and a missing or empty
asset path clears `lambdaOnly`, while a present one records
`modifiedLambdaFunctions[assetPath] = logicalId`. -/
def shortcutClassify :
    List (String × ResourceChange) → Bool × List (String × String) →
    Except String (Bool × List (String × String))
  | [], acc => .ok acc
  | d :: rest, acc =>
    if !(changeIsLambdaCode d.2) then shortcutClassify rest (false, acc.2)
    else
      match d.2.newValue with
      | none => .error "TypeError: Cannot read properties of undefined"
      | some newValue =>
        match newValue.metadata with
        | none => .error "TypeError: Cannot read properties of undefined (reading aws:asset:path)"
        | some meta =>
          match lookupStr meta "aws:asset:path" with
          | none => shortcutClassify rest (false, acc.2)
          | some assetPath =>
            if assetPath == "" then shortcutClassify rest (false, acc.2)
            else shortcutClassify rest (acc.1, objAssign acc.2 assetPath d.1)

/-! ## The skip-deploy decision -/

/-- Returned from `canSkipDeploy` (deploy-stack.ts lines 518-524):
whether there are changes, whether those changes were only to Lambda
assets, and the asset-path to logical-function-id map. -/
structure SkipDeployResult where
  hasChanges : Bool
  lambdaOnly : Option Bool := none
  modifiedAssetPaths : Option (List (String × String)) := none
deriving DecidableEq

/-- The synthesized stack artifact fields the engine reads. -/
structure StackArtifact where
  stackName : String
  id : String
  template : JsonVal
  terminationProtection : Bool
  stackTemplateAssetObjectUrl : Option String

/-- A resolved target environment. -/
structure Environment where
  account : String
  region : String
  name : String
deriving DecidableEq

/-- Bootstrap-stack information (`ToolkitInfo` is not in the sources; the
engine reads whether it was found, the staging bucket name and its URL). -/
structure ToolkitInfo where
  found : Bool
  bucketName : String
  bucketUrl : String
deriving DecidableEq

/-- The deploy-stack options the modelled control flow reads. `tags` and
`execute` keep their undefined defaults explicit. -/
structure DeployStackOptions where
  stack : StackArtifact
  resolvedEnvironment : Environment
  toolkitInfo : ToolkitInfo
  deployName : Option String := none
  tags : Option (List Tag) := none
  execute : Option Bool := none
  force : Bool := false
  shortcut : Bool := false

/-- Checks whether we can skip deployment (`canSkipDeploy`, deploy-stack.ts
lines 535-619). `parameterChanges` is the precomputed parameter-reconciler
flag; `differences` stands for the black-box
`cfnDiff.diffTemplate(cfnStackTemplate, options.stack.template)` result,
consumed only when the template check fires under the shortcut. The
template check compares the two documents by the text `JSON.stringify`
produces. -/
def canSkipDeploy (options : DeployStackOptions)
    (cloudFormationStack : CloudFormationStack)
    (parameterChanges : Bool) (isShortcut : Bool)
    (differences : List (String × ResourceChange)) :
    Except String SkipDeployResult :=
  -- Forced deploy
  if options.force then .ok { hasChanges := true }
  -- No existing stack
  else if !cloudFormationStack.stackExists then .ok { hasChanges := true }
  -- Template has changed (assets taken into account here)
  else if jsonStringify options.stack.template != jsonStringify cloudFormationStack.template then
    if !isShortcut then .ok { hasChanges := true }
    else
      (shortcutClassify differences (true, [])).map fun lm =>
        { hasChanges := true, lambdaOnly := some lm.1, modifiedAssetPaths := some lm.2 }
  -- Tags have changed
  else if !(compareTags cloudFormationStack.tags (options.tags.getD [])) then
    .ok { hasChanges := true }
  -- Termination protection has been updated
  else if options.stack.terminationProtection != cloudFormationStack.terminationProtection then
    .ok { hasChanges := true }
  -- Parameters have changed
  else if parameterChanges then .ok { hasChanges := true }
  -- Existing stack is in a failed state
  else if StackStatus.isFailure cloudFormationStack.statusName then .ok { hasChanges := true }
  -- We can skip deploy
  else .ok { hasChanges := false }

/-! ## Body-parameter sizing -/

/-- Modelled from the spec: the environment-placeholder substitution the
pre-uploaded template URL goes through (the cx-api helper is not in the
sources): account and region placeholders are substituted, the partition
placeholder gets a literal disallowed marker. -/
def replacePlaceholders (url account region partition : String) : String :=
  ((url.replace "$\x7bAWS::AccountId\x7d" account).replace
    "$\x7bAWS::Region\x7d" region).replace "$\x7bAWS::Partition\x7d" partition

/-- Modelled from the spec: the region's endpoint suffix, an external SDK
lookup ("a function the SDK already has"); the standard suffix. -/
def getEndpointSuffix (_region : String) : String := "amazonaws.com"

/-- The first match of the object-storage URL pattern s3://bucket/key in
the URL: the text after the first s3:// marker, split at its first slash
into a non-empty bucket and the remaining object key (the common
single-match case of the source's regular expression). -/
def s3UrlMatch (url : String) : Option (String × String) :=
  match url.splitOn "s3://" with
  | _ :: after₀ :: rest =>
    let after := String.intercalate "s3://" (after₀ :: rest)
    match after.splitOn "/" with
    | bucket :: k₀ :: ks =>
      if bucket == "" then none
      else some (bucket, String.intercalate "/" (k₀ :: ks))
    | _ => none
  | _ => none

/-- Format an S3 URL in the manifest for use with CloudFormation
(`restUrlFromManifest`, deploy-stack.ts lines 699-724): substitute
placeholders with a do-not-use marker for the partition and fail loudly if
it leaked into the URL; reformat an s3://bucket/key URL into the REST URL
the control plane expects, pass every other URL through. -/
def restUrlFromManifest (url : String) (environment : Environment) :
    Except String String :=
  let doNotUseMarker := "**DONOTUSE**"
  let url := replacePlaceholders url environment.account environment.region doNotUseMarker
  if strContains url doNotUseMarker then
    .error "Cannot use $\x7bAWS::Partition\x7d in the stackTemplateAssetObjectUrl field"
  else
    match s3UrlMatch url with
    | none => .ok url
    | some bk =>
      .ok ("https://s3." ++ environment.region ++ "." ++
        getEndpointSuffix environment.region ++ "/" ++ bk.1 ++ "/" ++ bk.2)

/-- Modelled from the spec: `toYAML` (serialize.ts is not in the sources).
The engine needs only that serialization be a deterministic pure function
of the document; modelled as the JSON rendering (JSON is a YAML subset). -/
def toYAML (template : JsonVal) : String := jsonStringify template

/-- Modelled from the spec: `contentHash` (util/content-hash.ts is not in
the sources). The spec requires a content-addressing hash — a pure function
of the content under which identical content maps to the identical storage
key and changed content to a changed key — so it is modelled as an
injective function of the content. -/
def contentHash (data : String) : String := data

def LARGE_TEMPLATE_SIZE_KB : Nat := 50

/-- The body parameter submitted to the change-set creation call. -/
structure TemplateBodyParameter where
  TemplateBody : Option String := none
  TemplateURL : Option String := none
deriving DecidableEq

/-- Prepares the body parameter for CreateChangeSet (`makeBodyParameter`,
deploy-stack.ts lines 430-471): a pre-uploaded template is used from its
URL; otherwise the serialized template is inlined when at or under the
large-template threshold, is an error when oversized without a bootstrap
bucket, and is otherwise staged under the content-hash-derived key
cdk/(stack id)/(hash).yml. -/
def makeBodyParameter (stack : StackArtifact) (resolvedEnvironment : Environment)
    (toolkitInfo : ToolkitInfo) : Except String TemplateBodyParameter :=
  match stack.stackTemplateAssetObjectUrl with
  | some url =>
    (restUrlFromManifest url resolvedEnvironment).map fun u => { TemplateURL := some u }
  | none =>
    let templateJson := toYAML stack.template
    if templateJson.length ≤ LARGE_TEMPLATE_SIZE_KB * 1024 then
      .ok { TemplateBody := some templateJson }
    else if !toolkitInfo.found then
      .error "Template too large to deploy (\"cdk bootstrap\" is required)"
    else
      let templateHash := contentHash templateJson
      let key := "cdk/" ++ stack.id ++ "/" ++ templateHash ++ ".yml"
      .ok { TemplateURL := some (toolkitInfo.bucketUrl ++ "/" ++ key) }

/-- Modelled from the spec: `changeSetHasNoChanges` (api/util/cloudformation
is not in the sources): "after the change-set finishes computing, if its
change list is empty". -/
def changeSetHasNoChanges (changes : List String) : Bool := changes.isEmpty

/-! ## The remote call trace and the orchestration -/

/-- One observable remote call of a deployment run, in the order issued. -/
inductive RemoteCall where
  | describeStacks (stackName : String)
  | deleteStack (stackName : String)
  | waitForStackDelete (stackName : String)
  | publishAssets (filterIds : Option (List String))
  | describeStackResources (logicalResourceId : String)
  | updateFunctionCode (functionName s3Bucket s3Key : String)
  | createChangeSet (changeSetName changeSetType : String) (body : TemplateBodyParameter)
  | waitForChangeSet (changeSetName : String)
  | updateTerminationProtection (enable : Bool)
  | deleteChangeSet (changeSetName : String)
  | executeChangeSet (changeSetName : String)
  | waitForStackDeploy (stackName : String)
deriving DecidableEq

/-- Remote calls that mutate remote state (the stack lookup, the waits and
the resource lookup are pure reads). -/
def RemoteCall.isMutating : RemoteCall → Bool
  | .deleteStack _ => true
  | .publishAssets _ => true
  | .updateFunctionCode _ _ _ => true
  | .createChangeSet _ _ _ => true
  | .updateTerminationProtection _ => true
  | .deleteChangeSet _ => true
  | .executeChangeSet _ => true
  | _ => false

/-- Remote calls that fetch the stack-state snapshot (the lookup and the
waits that re-read it). -/
def RemoteCall.isStackStateFetch : RemoteCall → Bool
  | .describeStacks _ => true
  | .waitForStackDelete _ => true
  | .waitForStackDeploy _ => true
  | _ => false

/-- Everything outside the orchestrator that one run consumes: what the
remote control plane returns (the lookup snapshot, the wait results, the
created change-set's stack id and its computed change list, physical
resource ids) and what the external collaborators deliver (the parameter
reconciler's final values and change flag, the diff evaluator's
differences, the fresh random execution id). -/
structure RemoteOracle where
  lookupResult : CloudFormationStack
  waitForDeleteResult : Option CloudFormationStack := none
  changeSetStackId : String := ""
  changeSetChanges : List String := []
  waitForDeployResult : Option CloudFormationStack := none
  physicalFunctionName : String → String := fun n => n
  executionId : String := ""
  parameterChanges : Bool := false
  stackParamValues : List (String × String) := []
  differences : List (String × ResourceChange) := []

/-- The orchestration runs in an exception monad that keeps the ordered
trace of remote calls, also on the error path. -/
abbrev DeployM := EStateM String (List RemoteCall)

/-- Record one remote call at the end of the trace. -/
def recordCall (c : RemoteCall) : DeployM Unit := modify fun calls => calls ++ [c]

/-- The deployment outcome (`DeployStackResult`): the no-op flag, the
outputs and the stack id the caller receives. -/
structure DeployStackResult where
  noOp : Bool
  outputs : List (String × String)
  stackArn : String
deriving DecidableEq

/-- Tier 1 of the fast-path coordinate resolution (deploy-stack.ts lines
266-287): scan every stack parameter; a parameter key containing the asset
id sets the bucket when the key also contains S3Bucket, and sets the
object key (with the || delimiter removed) when it also contains
S3VersionKey. -/
def lambdaParamScan (stackParamValues : List (String × String)) (assetId : String) :
    String × String :=
  stackParamValues.foldl
    (fun acc kv =>
      if strContains kv.1 assetId then
        (if strContains kv.1 "S3Bucket" then kv.2 else acc.1,
         if strContains kv.1 "S3VersionKey" then replaceFirst kv.2 "||" "" else acc.2)
      else acc)
    ("", "")

/-- JavaScript assignment of a possibly missing string property into a
string variable: a present string is taken; a missing value (undefined —
falsy exactly like the empty string everywhere the variable is used) is
modelled as the empty string. -/
def asStringOrEmpty : Option JsonVal → String
  | some (.jstr s) => s
  | _ => ""

/-- `Object.entries` with the missing-object default. -/
def jsonEntries : Option JsonVal → List (String × JsonVal)
  | some (.jobj fs) => fs.toList
  | _ => []

/-- Tiers 2 and 3 of the fast-path coordinate resolution (deploy-stack.ts
lines 293-321): scan the desired template's Lambda resources for the
logical function name and take the code location from Properties.Code — a
literal S3Bucket string directly, an Fn::Sub string expression with the
account and region substituted. Reading Code on a matching resource
without Properties, or a bucket value that is neither a string nor an
object with an Fn::Sub string, throws a TypeError. -/
def fallbackLambdaCoords (template : JsonVal) (stackEnv : Environment)
    (logicalFunctionName s3Bucket₀ s3Key₀ : String) : Except String (String × String) :=
  let stackLambdas := (jsonEntries (template.getField "Resources")).filter
    fun resEntry =>
      match resEntry.2.getField "Type" with
      | some (.jstr t) => t == "AWS::Lambda::Function"
      | _ => false
  stackLambdas.foldlM
    (fun acc stackLambda =>
      if stackLambda.1 == logicalFunctionName then
        match stackLambda.2.getField "Properties" with
        | none => .error "TypeError: Cannot read properties of undefined (reading Code)"
        | some props =>
          match props.getField "Code" with
          | none => .error "TypeError: Cannot read properties of undefined (reading S3Bucket)"
          | some code =>
            match code.getField "S3Bucket" with
            | some (.jstr b) => .ok (b, asStringOrEmpty (code.getField "S3Key"))
            | some (.jobj o) =>
              match o.get "Fn::Sub" with
              | some (.jstr sub) =>
                .ok (replaceFirst (replaceFirst sub "$\x7bAWS::AccountId\x7d" stackEnv.account)
                      "$\x7bAWS::Region\x7d" stackEnv.region,
                    asStringOrEmpty (code.getField "S3Key"))
              | _ => .error "TypeError: sub.replace is not a function"
            | _ => .error "TypeError: sub.replace is not a function"
      else .ok acc)
    (s3Bucket₀, s3Key₀)

/-- The full coordinate resolution for one changed function: the parameter
scan, then — when the bucket or the key is still empty — the template
fallback. -/
def resolveLambdaCode (stackParamValues : List (String × String)) (template : JsonVal)
    (stackEnv : Environment) (assetPath logicalFunctionName : String) :
    Except String (String × String) :=
  let t1 := lambdaParamScan stackParamValues (replaceFirst assetPath "asset." "")
  if t1.2 == "" || t1.1 == "" then
    fallbackLambdaCoords template stackEnv logicalFunctionName t1.1 t1.2
  else .ok t1

/-- The per-function fast-path update loop (deploy-stack.ts lines 262-325):
for each (asset path, logical function name) entry, look up the physical
function name (describeStackResources), resolve the code coordinates, and
push the new code with updateFunctionCode (`shortcutLambdaFunction`,
asset-publishing.ts lines 33-52). -/
def shortcutUpdateLoop (oracle : RemoteOracle) (template : JsonVal)
    (stackEnv : Environment) : List (String × String) → DeployM Unit
  | [] => pure ()
  | entry :: rest => do
    recordCall (.describeStackResources entry.2)
    let functionName := oracle.physicalFunctionName entry.2
    match resolveLambdaCode oracle.stackParamValues template stackEnv entry.1 entry.2 with
    | .error e => throw e
    | .ok bk =>
      recordCall (.updateFunctionCode functionName bk.1 bk.2)
      shortcutUpdateLoop oracle template stackEnv rest

/-- The deployment orchestration (`deployStack`, deploy-stack.ts lines
187-415), with every remote call recorded in order: lookup; the
creation-failure cleanup (delete, wait, treat as non-existent; any
post-delete state other than DELETE_COMPLETE is fatal); the skip-deploy
decision; under the shortcut, either the direct Lambda update loop
(lambda-only changes) or a no-op return; otherwise the change-set path:
body parameter, asset publishing, change-set creation (UPDATE for an
existing stack not in review, CREATE otherwise), termination-protection
update on mismatch, deletion of an empty change set, execution and the
final wait otherwise. Collaborator calls that only build local data (the
legacy asset manifest, the parameter plan) are not remote calls; their
results come from the oracle. -/
def deployStackM (options : DeployStackOptions) (oracle : RemoteOracle) :
    DeployM DeployStackResult := do
  let stackArtifact := options.stack
  let stackEnv := options.resolvedEnvironment
  let deployName := options.deployName.getD stackArtifact.stackName
  recordCall (.describeStacks deployName)
  let mut cloudFormationStack := oracle.lookupResult
  if StackStatus.isCreationFailure cloudFormationStack.statusName then
    recordCall (.deleteStack deployName)
    recordCall (.waitForStackDelete deployName)
    match oracle.waitForDeleteResult with
    | some deletedStack =>
      if deletedStack.statusName != "DELETE_COMPLETE" then
        throw ("Failed deleting stack " ++ deployName ++
          " that had previously failed creation (current state: " ++
          deletedStack.statusName ++ ")")
    | none => pure ()
    cloudFormationStack := CloudFormationStack.doesNotExist deployName
  let skipDeployResult ←
    match canSkipDeploy options cloudFormationStack oracle.parameterChanges
        options.shortcut oracle.differences with
    | .ok r => pure r
    | .error e => throw e
  if !skipDeployResult.hasChanges then
    return { noOp := true, outputs := cloudFormationStack.outputs,
             stackArn := cloudFormationStack.stackId }
  if options.shortcut then
    if skipDeployResult.lambdaOnly == some true then
      let modifiedAssetPaths := skipDeployResult.modifiedAssetPaths.getD []
      let filterIds := modifiedAssetPaths.map fun kv => replaceFirst kv.1 "asset." ""
      recordCall (.publishAssets (some filterIds))
      shortcutUpdateLoop oracle stackArtifact.template stackEnv modifiedAssetPaths
      return { noOp := false, outputs := cloudFormationStack.outputs,
               stackArn := cloudFormationStack.stackId }
    else
      return { noOp := true, outputs := cloudFormationStack.outputs,
               stackArn := cloudFormationStack.stackId }
  let bodyParameter ←
    match makeBodyParameter stackArtifact options.resolvedEnvironment options.toolkitInfo with
    | .ok b => pure b
    | .error e => throw e
  recordCall (.publishAssets none)
  let changeSetName := "CDK-" ++ oracle.executionId
  let update := cloudFormationStack.stackExists &&
    cloudFormationStack.statusName != "REVIEW_IN_PROGRESS"
  recordCall (.createChangeSet changeSetName (if update then "UPDATE" else "CREATE") bodyParameter)
  recordCall (.waitForChangeSet changeSetName)
  let terminationProtection := stackArtifact.terminationProtection
  if cloudFormationStack.terminationProtection != terminationProtection then
    recordCall (.updateTerminationProtection terminationProtection)
  if changeSetHasNoChanges oracle.changeSetChanges then
    recordCall (.deleteChangeSet changeSetName)
    return { noOp := true, outputs := cloudFormationStack.outputs,
             stackArn := oracle.changeSetStackId }
  if options.execute.getD true then
    recordCall (.executeChangeSet changeSetName)
    recordCall (.waitForStackDeploy deployName)
    match oracle.waitForDeployResult with
    | none => throw "Stack deploy failed (the stack disappeared while we were deploying it)"
    | some finalStack => cloudFormationStack := finalStack
  return { noOp := false, outputs := cloudFormationStack.outputs,
           stackArn := oracle.changeSetStackId }

/-- Run the orchestration from an empty trace: the outcome and the ordered
remote calls it made (the trace survives an error). -/
def deployStack (options : DeployStackOptions) (oracle : RemoteOracle) :
    Except String DeployStackResult × List RemoteCall :=
  match (deployStackM options oracle).run [] with
  | .ok r calls => (.ok r, calls)
  | .error e calls => (.error e, calls)

deriving instance DecidableEq for Except

/-! ## Characterizations used by the statements -/

/-- The asset-path annotation of a resource difference: the value of
aws:asset:path in the new value's metadata section, when both exist. -/
def assetPathOf (c : ResourceChange) : Option String :=
  match c.newValue with
  | some nv =>
    match nv.metadata with
    | some meta => lookupStr meta "aws:asset:path"
    | none => none
  | none => none

/-- A difference qualifies for the fast path: classified as
Lambda-code-only, and carrying a non-empty asset-path annotation. -/
def qualifiesForFastPath (d : String × ResourceChange) : Bool :=
  changeIsLambdaCode d.2 &&
    (match assetPathOf d.2 with
     | some p => p != ""
     | none => false)

/-! ## Concrete configurations -/

/-- A plain bucket resource document. -/
def sampleBucketDoc : JsonVal := .jobj (.cons "Type" (.jstr "AWS::S3::Bucket") .nil)

/-- A small template with one bucket resource. -/
def sampleTemplate : JsonVal :=
  .jobj (.cons "Resources" (.jobj (.cons "SomeBucket" sampleBucketDoc .nil)) .nil)

def sampleEnvironment : Environment :=
  { account := "111111111111", region := "us-east-1", name := "aws://111111111111/us-east-1" }

def sampleToolkitInfo : ToolkitInfo :=
  { found := true, bucketName := "cdk-staging",
    bucketUrl := "https://cdk-staging.s3.us-east-1.amazonaws.com" }

def sampleArtifact : StackArtifact :=
  { stackName := "mystack", id := "mystack", template := sampleTemplate,
    terminationProtection := false, stackTemplateAssetObjectUrl := none }

/-- A healthy existing remote stack holding exactly the sample template. -/
def sampleRemote : CloudFormationStack :=
  { stackName := "mystack", stackExists := true, statusName := "CREATE_COMPLETE",
    stackId := "arn:mystack/1111", tags := [], outputs := [("Endpoint", "https://x")],
    terminationProtection := false, template := sampleTemplate }

def sampleOptions : DeployStackOptions :=
  { stack := sampleArtifact, resolvedEnvironment := sampleEnvironment,
    toolkitInfo := sampleToolkitInfo }

/-- A tag list with a repeated key. -/
def c1DupTags : List Tag := [⟨"stage", "alpha"⟩, ⟨"stage", "beta"⟩]

def c1CexRemote : CloudFormationStack := { sampleRemote with tags := c1DupTags }

def c1CexOptions : DeployStackOptions := { sampleOptions with tags := some c1DupTags }

def c1Oracle : RemoteOracle :=
  { lookupResult := { sampleRemote with tags := [⟨"env", "prod"⟩] } }

def c1Options : DeployStackOptions := { sampleOptions with tags := some [⟨"env", "prod"⟩] }

def c2Options : DeployStackOptions := { sampleOptions with force := true }

def c2Oracle : RemoteOracle :=
  { lookupResult := sampleRemote, executionId := "11111111-2222",
    changeSetStackId := sampleRemote.stackId }

/-- The sample resources rendered with the two top-level sections in one order… -/
def c3DeployedFields : List (String × JsonVal) :=
  [("Parameters", .jobj .nil),
   ("Resources", .jobj (.cons "SomeBucket" sampleBucketDoc .nil))]

/-- …and in the other order: the same document as an unordered map. -/
def c3DesiredFields : List (String × JsonVal) :=
  [("Resources", .jobj (.cons "SomeBucket" sampleBucketDoc .nil)),
   ("Parameters", .jobj .nil)]

def c3DeployedTemplate : JsonVal := .jobj (.ofList c3DeployedFields)

def c3DesiredTemplate : JsonVal := .jobj (.ofList c3DesiredFields)

def c3Remote : CloudFormationStack := { sampleRemote with template := c3DeployedTemplate }

def c3Options : DeployStackOptions :=
  { sampleOptions with stack := { sampleArtifact with template := c3DesiredTemplate } }

/-- A Lambda-function difference whose only property update is a numeric
Timeout change: a JavaScript for..in loop enumerates no keys on a number. -/
def c4TimeoutChange : ResourceChange :=
  { newValue := some { typeName := "AWS::Lambda::Function",
                       metadata := some [("aws:asset:path", "asset.0123")] },
    propertyUpdates := [("Timeout", { newValue := some (.jnum 60) })] }

/-- A Lambda resource whose code location names a bucket but no object key. -/
def c5LambdaResource : JsonVal :=
  .jobj (.cons "Type" (.jstr "AWS::Lambda::Function")
    (.cons "Properties"
      (.jobj (.cons "Code" (.jobj (.cons "S3Bucket" (.jstr "mybucket") .nil)) .nil)) .nil))

def c5DesiredTemplate : JsonVal :=
  .jobj (.cons "Resources" (.jobj (.cons "Fn" c5LambdaResource .nil)) .nil)

/-- A qualifying code-only difference on that function, with its asset-path
annotation. -/
def c5Change : ResourceChange :=
  { newValue := some { typeName := "AWS::Lambda::Function",
                       metadata := some [("aws:asset:path", "asset.777")] },
    propertyUpdates :=
      [("Code", { newValue := some (.jobj (.cons "S3Bucket" (.jstr "mybucket") .nil)) })] }

def c5Options : DeployStackOptions :=
  { sampleOptions with stack := { sampleArtifact with template := c5DesiredTemplate },
                       shortcut := true }

def c5Oracle : RemoteOracle :=
  { lookupResult := sampleRemote, differences := [("Fn", c5Change)] }

def c6Options : DeployStackOptions := { sampleOptions with shortcut := true }

def c6Oracle : RemoteOracle :=
  { lookupResult := { sampleRemote with statusName := "CREATE_FAILED" } }

/-! ## Helper lemmas -/

/-- A non-failure status is in particular not the creation-failure status. -/
theorem isCreationFailure_false_of_not_failure {s : String}
    (h : StackStatus.isFailure s = false) : StackStatus.isCreationFailure s = false := by
  unfold StackStatus.isFailure at h
  unfold StackStatus.isCreationFailure
  cases hc : s == "CREATE_FAILED" <;> simp_all

/-- In a tag list without repeated keys, the search for a member's key
finds that member. -/
theorem find_self_of_nodup_keys {l : List Tag} {a : Tag}
    (hnodup : (l.map Tag.Key).Nodup) (ha : a ∈ l) :
    l.find? (fun tag => tag.Key == a.Key) = some a := by
  induction l with
  | nil => simp at ha
  | cons x xs ih =>
    simp only [List.map_cons, List.nodup_cons] at hnodup
    rcases List.mem_cons.mp ha with h | h
    · subst h
      simp [List.find?]
    · have hxk : x.Key ≠ a.Key := by
        intro he
        exact hnodup.1 (he ▸ (List.mem_map.mpr ⟨a, h, rfl⟩))
      have hb : (x.Key == a.Key) = false := by simp [hxk]
      simp only [List.find?, hb]
      exact ih hnodup.2 h

/-- `compareTags` is reflexive on tag lists without repeated keys. -/
theorem compareTags_self_of_nodup_keys {l : List Tag}
    (hnodup : (l.map Tag.Key).Nodup) : compareTags l l = true := by
  unfold compareTags
  simp only [bne_self_eq_false, Bool.false_eq_true, if_false]
  rw [List.all_eq_true]
  intro a ha
  rw [find_self_of_nodup_keys hnodup ha]
  simp

/-- C1: (amended: the identical tag lists carry no repeated tag keys).
For a remote stack that exists in a healthy status, with the deployed and
desired templates identical, identical tag lists without repeated keys,
equal termination-protection flags, no parameter changes and no forced
deployment, `canSkipDeploy` reports no changes and `deployStack` performs
zero mutating remote calls — its whole trace is the one lookup — and
returns noOp with the outputs and stack id of the existing remote state. -/
theorem c1_skip_identical_healthy (options : DeployStackOptions) (oracle : RemoteOracle)
    (hforce : options.force = false)
    (hexists : oracle.lookupResult.stackExists = true)
    (htmpl : options.stack.template = oracle.lookupResult.template)
    (htags : options.tags = some oracle.lookupResult.tags)
    (hnodup : (oracle.lookupResult.tags.map Tag.Key).Nodup)
    (hterm : options.stack.terminationProtection = oracle.lookupResult.terminationProtection)
    (hparams : oracle.parameterChanges = false)
    (hhealthy : StackStatus.isFailure oracle.lookupResult.statusName = false) :
    canSkipDeploy options oracle.lookupResult oracle.parameterChanges options.shortcut
        oracle.differences = .ok { hasChanges := false } ∧
    deployStack options oracle =
      (.ok { noOp := true, outputs := oracle.lookupResult.outputs,
             stackArn := oracle.lookupResult.stackId },
       [.describeStacks (options.deployName.getD options.stack.stackName)]) := by
  have hskip : canSkipDeploy options oracle.lookupResult oracle.parameterChanges options.shortcut
      oracle.differences = .ok { hasChanges := false } := by
    unfold canSkipDeploy
    rw [htmpl, htags]
    simp [hforce, hexists, hparams, hhealthy, hterm, compareTags_self_of_nodup_keys hnodup]
  refine ⟨hskip, ?_⟩
  have hcf := isCreationFailure_false_of_not_failure hhealthy
  unfold deployStack deployStackM
  simp only [recordCall, hcf, hskip, Bool.false_eq_true, if_false, reduceCtorEq]
  simp [EStateM.run, bind, EStateM.bind, modify, modifyGet, MonadStateOf.modifyGet,
    EStateM.modifyGet, pure, EStateM.pure]

/-- C1 witness: the healthy-identical scenario at a concrete configuration. -/
theorem c1_witness :
    canSkipDeploy c1Options c1Oracle.lookupResult c1Oracle.parameterChanges c1Options.shortcut
        c1Oracle.differences = .ok { hasChanges := false } ∧
    deployStack c1Options c1Oracle =
      (.ok { noOp := true, outputs := c1Oracle.lookupResult.outputs,
             stackArn := c1Oracle.lookupResult.stackId },
       [.describeStacks (c1Options.deployName.getD c1Options.stack.stackName)]) :=
  c1_skip_identical_healthy c1Options c1Oracle rfl rfl rfl rfl (by decide) rfl rfl rfl

/-- C1 counterexample: with a repeated tag key, remote and desired tag
lists that are identical (and templates, termination flags, parameters
identical, remote healthy, no force) still yield hasChanges = true:
`compareTags` is not reflexive on lists with repeated keys. -/
theorem c1_counterexample_duplicate_tag_keys :
    c1CexOptions.force = false ∧ c1CexRemote.stackExists = true ∧
    StackStatus.isFailure c1CexRemote.statusName = false ∧
    c1CexOptions.stack.template = c1CexRemote.template ∧
    c1CexOptions.tags = some c1CexRemote.tags ∧
    c1CexOptions.stack.terminationProtection = c1CexRemote.terminationProtection ∧
    canSkipDeploy c1CexOptions c1CexRemote false false [] = .ok { hasChanges := true } :=
  ⟨rfl, rfl, rfl, rfl, rfl, rfl, by decide⟩

/-- C3: (amended) the skip-deploy template check is textual, not
structural: under every configuration where no earlier branch fires and the
later branches would not fire, the decision's hasChanges flag equals the
inequality of the two documents' JSON renderings, so equal renderings do
not trigger the branch and any rendering difference — including pure key
reordering — does. -/
theorem c3_template_check_textual (options : DeployStackOptions)
    (stack : CloudFormationStack) (parameterChanges : Bool)
    (differences : List (String × ResourceChange))
    (hforce : options.force = false) (hexists : stack.stackExists = true)
    (htags : compareTags stack.tags (options.tags.getD []) = true)
    (hterm : options.stack.terminationProtection = stack.terminationProtection)
    (hparams : parameterChanges = false)
    (hhealthy : StackStatus.isFailure stack.statusName = false) :
    canSkipDeploy options stack parameterChanges false differences =
      .ok { hasChanges := jsonStringify options.stack.template != jsonStringify stack.template } := by
  unfold canSkipDeploy
  by_cases hT : jsonStringify options.stack.template = jsonStringify stack.template
  · simp [hforce, hexists, hT, htags, hterm, hparams, hhealthy]
  · simp [hforce, hexists, hT, htags, hterm, hparams, hhealthy]

/-- C3 witness: the textual template check at the concrete key-order
configuration. -/
theorem c3_witness :
    canSkipDeploy c3Options c3Remote false false [] =
      .ok { hasChanges := jsonStringify c3Options.stack.template !=
                          jsonStringify c3Remote.template } :=
  c3_template_check_textual c3Options c3Remote false [] rfl rfl (by decide) rfl rfl rfl

/-- C3 counterexample: two templates that are structurally equal as
documents — the same top-level sections as a permutation, differing only
in key order — trigger the template-difference branch: the check is
textual. -/
theorem c3_counterexample_key_order :
    c3DesiredFields.Perm c3DeployedFields ∧
    c3Options.force = false ∧ c3Remote.stackExists = true ∧
    compareTags c3Remote.tags (c3Options.tags.getD []) = true ∧
    c3Options.stack.terminationProtection = c3Remote.terminationProtection ∧
    StackStatus.isFailure c3Remote.statusName = false ∧
    canSkipDeploy c3Options c3Remote false false [] = .ok { hasChanges := true } := by
  refine ⟨?_, rfl, rfl, by decide, rfl, rfl, by decide⟩
  simp only [c3DesiredFields, c3DeployedFields]
  exact List.Perm.swap _ _ _

/-- C9: (amended: the set characterization holds for tag lists without
repeated keys). `compareTags` returns false on mismatched lengths; on
duplicate-free lists it decides exactly same-set-of-pairs equality; and in
a configuration where no earlier skip-deploy branch fires and the later
branches would not fire, hasChanges is exactly the tag comparison's
negation. -/
theorem c9_compareTags_characterized :
    (∀ a b : List Tag, a.length ≠ b.length → compareTags a b = false) ∧
    (∀ a b : List Tag, (a.map Tag.Key).Nodup → (b.map Tag.Key).Nodup →
      (compareTags a b = true ↔ ∀ t, t ∈ a ↔ t ∈ b)) ∧
    (∀ (options : DeployStackOptions) (stack : CloudFormationStack)
       (parameterChanges : Bool) (differences : List (String × ResourceChange)),
      options.force = false → stack.stackExists = true →
      jsonStringify options.stack.template = jsonStringify stack.template →
      options.stack.terminationProtection = stack.terminationProtection →
      parameterChanges = false →
      StackStatus.isFailure stack.statusName = false →
      canSkipDeploy options stack parameterChanges false differences =
        .ok { hasChanges := !(compareTags stack.tags (options.tags.getD [])) }) := by
  refine ⟨?_, ?_, ?_⟩
  · intro a b hne
    have hb : (a.length != b.length) = true := by simpa [bne_iff_ne] using hne
    simp [compareTags, hb]
  · intro a b ha hb
    have hda : a.Nodup := List.Nodup.of_map _ ha
    have hdb : b.Nodup := List.Nodup.of_map _ hb
    constructor
    · intro h
      by_cases hlen : a.length = b.length
      case neg => simp [compareTags, hlen] at h
      have hall : ∀ t ∈ a, (match b.find? (fun tag => tag.Key == t.Key) with
          | none => false
          | some bTag => bTag.Value == t.Value) = true := by
        have := h
        unfold compareTags at this
        simp only [hlen, bne_self_eq_false, Bool.false_eq_true, if_false] at this
        exact List.all_eq_true.mp this
      have hsub : ∀ t ∈ a, t ∈ b := by
        intro t ht
        have hm := hall t ht
        cases hf : b.find? (fun tag => tag.Key == t.Key) with
        | none => rw [hf] at hm; simp at hm
        | some bTag =>
          rw [hf] at hm
          simp only [beq_iff_eq] at hm
          have hmem := List.mem_of_find?_eq_some hf
          have hkey := List.find?_some hf
          simp only [beq_iff_eq] at hkey
          have : bTag = t := by
            cases bTag; cases t
            simp_all
          rwa [← this]
      have hcard : a.toFinset.card = b.toFinset.card := by
        rw [List.toFinset_card_of_nodup hda, List.toFinset_card_of_nodup hdb, hlen]
      have hsubF : a.toFinset ⊆ b.toFinset := by
        intro t htf
        rw [List.mem_toFinset] at htf ⊢
        exact hsub t htf
      have heqF : a.toFinset = b.toFinset :=
        Finset.eq_of_subset_of_card_le hsubF (le_of_eq hcard.symm)
      intro t
      constructor
      · exact hsub t
      · intro htb
        have : t ∈ b.toFinset := List.mem_toFinset.mpr htb
        rw [← heqF] at this
        exact List.mem_toFinset.mp this
    · intro h
      have hperm : a.Perm b := (List.perm_ext_iff_of_nodup hda hdb).mpr h
      have hlen := hperm.length_eq
      unfold compareTags
      simp only [hlen, bne_self_eq_false, Bool.false_eq_true, if_false]
      rw [List.all_eq_true]
      intro t ht
      have htb : t ∈ b := (h t).mp ht
      rw [find_self_of_nodup_keys hb htb]
      simp
  · intro options stack parameterChanges differences hforce hexists hT hterm hparams hhealthy
    unfold canSkipDeploy
    by_cases htags : compareTags stack.tags (options.tags.getD []) = true
    · simp [hforce, hexists, hT, htags, hterm, hparams, hhealthy]
    · simp only [Bool.not_eq_true] at htags
      simp [hforce, hexists, hT, htags, hterm, hparams, hhealthy]

/-- C9 counterexample: with repeated keys, two tag lists that are
permutations of each other — the same multiset, hence the same set, of
key/value pairs, with equal lengths — compare as different. -/
theorem c9_counterexample_duplicate_keys :
    ([⟨"stage", "alpha"⟩, ⟨"stage", "beta"⟩] : List Tag).Perm
      [⟨"stage", "beta"⟩, ⟨"stage", "alpha"⟩] ∧
    compareTags [⟨"stage", "alpha"⟩, ⟨"stage", "beta"⟩]
      [⟨"stage", "beta"⟩, ⟨"stage", "alpha"⟩] = false := by
  refine ⟨List.Perm.swap _ _ _, by decide⟩

/-- Association lookup on a cons cell. -/
theorem lookupStr_cons (x : String × String) (xs : List (String × String)) (key : String) :
    lookupStr (x :: xs) key = if x.1 == key then some x.2 else lookupStr xs key := by
  simp only [lookupStr, List.find?]
  cases h : (x.1 == key) <;> simp

/-- Replacing the bindings of one key leaves lookups of other keys alone. -/
theorem lookupStr_map_replace_ne (m : List (String × String)) (k v k' : String)
    (hne : k' ≠ k) :
    lookupStr (m.map fun kv => if kv.1 == k then (k, v) else kv) k' = lookupStr m k' := by
  have hkk' : (k == k') = false := by
    cases h : (k == k') with
    | false => rfl
    | true =>
      have h' : k = k' := by simpa using h
      exact absurd h'.symm hne
  induction m with
  | nil => rfl
  | cons x xs ih =>
    rw [List.map_cons, lookupStr_cons, lookupStr_cons]
    by_cases hx : x.1 = k
    · have hxb : (x.1 == k) = true := by simp [hx]
      have h₂ : (x.1 == k') = false := by rw [hx]; exact hkk'
      simp only [hxb, if_true, hkk', h₂, Bool.false_eq_true, if_false]
      exact ih
    · have hxb : (x.1 == k) = false := by simp [hx]
      simp only [hxb, Bool.false_eq_true, if_false]
      cases h₂ : (x.1 == k') with
      | true => rfl
      | false =>
        simp only [Bool.false_eq_true, if_false]
        exact ih

/-- Replacing the bindings of a present key makes its lookup the new value. -/
theorem lookupStr_map_replace_eq (m : List (String × String)) (k v : String)
    (hany : m.any (fun kv => kv.1 == k) = true) :
    lookupStr (m.map fun kv => if kv.1 == k then (k, v) else kv) k = some v := by
  induction m with
  | nil => simp at hany
  | cons x xs ih =>
    rw [List.map_cons, lookupStr_cons]
    by_cases hx : x.1 = k
    · have hxb : (x.1 == k) = true := by simp [hx]
      simp [hxb]
    · have hxb : (x.1 == k) = false := by simp [hx]
      have hany' : xs.any (fun kv => kv.1 == k) = true := by
        simpa [List.any_cons, hxb] using hany
      simp only [hxb, Bool.false_eq_true, if_false]
      exact ih hany'

/-- A key absent from the list looks up to nothing. -/
theorem lookupStr_none_of_not_any (m : List (String × String)) (k : String)
    (hany : m.any (fun kv => kv.1 == k) = false) : lookupStr m k = none := by
  induction m with
  | nil => rfl
  | cons x xs ih =>
    rw [List.any_cons] at hany
    have hx : (x.1 == k) = false := by
      cases h : (x.1 == k) <;> simp [h] at hany ⊢
    have hxs : xs.any (fun kv => kv.1 == k) = false := by
      cases h : xs.any (fun kv => kv.1 == k) <;> simp [h, hx] at hany ⊢
    rw [lookupStr_cons]
    simp only [hx, Bool.false_eq_true, if_false]
    exact ih hxs

/-- Lookup after appending one binding at the end. -/
theorem lookupStr_append_single (m : List (String × String)) (k v k' : String) :
    lookupStr (m ++ [(k, v)]) k' =
      match lookupStr m k' with
      | some r => some r
      | none => if k' = k then some v else none := by
  induction m with
  | nil =>
    simp only [List.nil_append, lookupStr_cons]
    by_cases hk : k' = k
    · have hb : (k == k') = true := by simp [hk]
      simp [hb, hk, lookupStr]
    · have hb : (k == k') = false := by
        cases h : (k == k') with
        | false => rfl
        | true =>
          have h' : k = k' := by simpa using h
          exact absurd h'.symm hk
      simp [hb, hk, lookupStr]
  | cons x xs ih =>
    rw [List.cons_append, lookupStr_cons, lookupStr_cons]
    cases h₂ : (x.1 == k') with
    | true => simp
    | false =>
      simp only [Bool.false_eq_true, if_false]
      exact ih

/-- JavaScript object assignment, observed through lookup: the assigned key
now maps to the new value, every other key is untouched. -/
theorem lookupStr_objAssign (m : List (String × String)) (k v k' : String) :
    lookupStr (objAssign m k v) k' = if k' = k then some v else lookupStr m k' := by
  unfold objAssign
  by_cases hany : m.any (fun kv => kv.1 == k) = true
  · rw [if_pos hany]
    by_cases hk : k' = k
    · rw [if_pos hk, hk, lookupStr_map_replace_eq m k v hany]
    · rw [if_neg hk, lookupStr_map_replace_ne m k v k' hk]
  · rw [if_neg hany, lookupStr_append_single]
    have hnone : lookupStr m k = none :=
      lookupStr_none_of_not_any m k (by cases h : m.any (fun kv => kv.1 == k) <;> simp_all)
    by_cases hk : k' = k
    · rw [if_pos hk, hk, hnone]
      simp
    · rw [if_neg hk]
      cases hm : lookupStr m k' <;> simp [hk, hm]

/-- The classification fold, characterized: when every Lambda-code-only
difference carries a metadata section (so no TypeError is thrown), the
loop returns its flag conjoined with all differences qualifying, and its
map sends each asset path to the logical id of the last qualifying
difference annotated with it. -/
theorem shortcutClassify_spec (differences : List (String × ResourceChange))
    (hmeta : ∀ d ∈ differences, changeIsLambdaCode d.2 = true →
      ∃ nv, d.2.newValue = some nv ∧ nv.metadata ≠ none)
    (b₀ : Bool) (m₀ : List (String × String)) :
    ∃ lm, shortcutClassify differences (b₀, m₀) = .ok lm ∧
      lm.1 = (b₀ && differences.all qualifiesForFastPath) ∧
      ∀ p, lookupStr lm.2 p =
        (match (differences.filter fun d =>
            qualifiesForFastPath d && (assetPathOf d.2 == some p)).getLast? with
         | some d => some d.1
         | none => lookupStr m₀ p) := by
  induction differences generalizing b₀ m₀ with
  | nil => exact ⟨(b₀, m₀), rfl, by simp, fun p => by simp⟩
  | cons d rest ih =>
    have hmrest : ∀ d' ∈ rest, changeIsLambdaCode d'.2 = true →
        ∃ nv, d'.2.newValue = some nv ∧ nv.metadata ≠ none :=
      fun d' hd' => hmeta d' (List.mem_cons_of_mem d hd')
    cases hq : changeIsLambdaCode d.2 with
    | false =>
      have hqd : qualifiesForFastPath d = false := by
        simp [qualifiesForFastPath, hq]
      obtain ⟨lm, h1, h2, h3⟩ := ih hmrest false m₀
      refine ⟨lm, ?_, ?_, ?_⟩
      · simpa [shortcutClassify, hq] using h1
      · simp [h2, List.all_cons, hqd]
      · intro p
        rw [h3 p]
        simp [List.filter_cons, hqd]
    | true =>
      obtain ⟨nv, hnv, hmnv⟩ := hmeta d (List.mem_cons_self d rest) hq
      cases hmv : nv.metadata with
      | none => exact absurd hmv hmnv
      | some meta =>
        have hann : assetPathOf d.2 = lookupStr meta "aws:asset:path" := by
          simp [assetPathOf, hnv, hmv]
        cases hap : lookupStr meta "aws:asset:path" with
        | none =>
          have hqd : qualifiesForFastPath d = false := by
            simp [qualifiesForFastPath, hann, hap]
          obtain ⟨lm, h1, h2, h3⟩ := ih hmrest false m₀
          refine ⟨lm, ?_, ?_, ?_⟩
          · simpa [shortcutClassify, hq, hnv, hmv, hap] using h1
          · simp [h2, List.all_cons, hqd]
          · intro p
            rw [h3 p]
            simp [List.filter_cons, hqd]
        | some p₀ =>
          cases hp0 : (p₀ == "") with
          | true =>
            have hqd : qualifiesForFastPath d = false := by
              simp [qualifiesForFastPath, hann, hap, hq, bne]
              simpa using hp0
            obtain ⟨lm, h1, h2, h3⟩ := ih hmrest false m₀
            refine ⟨lm, ?_, ?_, ?_⟩
            · simpa [shortcutClassify, hq, hnv, hmv, hap, hp0] using h1
            · simp [h2, List.all_cons, hqd]
            · intro p
              rw [h3 p]
              simp [List.filter_cons, hqd]
          | false =>
            have hqd : qualifiesForFastPath d = true := by
              simp [qualifiesForFastPath, hann, hap, hq, bne]
              simpa using hp0
            obtain ⟨lm, h1, h2, h3⟩ := ih hmrest b₀ (objAssign m₀ p₀ d.1)
            refine ⟨lm, ?_, ?_, ?_⟩
            · simpa [shortcutClassify, hq, hnv, hmv, hap, hp0] using h1
            · simp [h2, List.all_cons, hqd]
            · intro p
              rw [h3 p]
              by_cases hpp : p = p₀
              · have hb : (assetPathOf d.2 == some p) = true := by
                  simp [hann, hap, hpp]
                simp only [List.filter_cons, hqd, hb, Bool.and_self, if_true]
                cases hfr : rest.filter (fun d' =>
                    qualifiesForFastPath d' && (assetPathOf d'.2 == some p)) with
                | nil =>
                  simp [lookupStr_objAssign, hpp]
                | cons y ys =>
                  have hgl : ((y :: ys).getLast?).isSome := by simp
                  cases hg : (y :: ys).getLast? with
                  | none => rw [hg] at hgl; simp at hgl
                  | some dl => simp [hg]
              · have hb : (assetPathOf d.2 == some p) = false := by
                  simp [hann, hap]
                  exact fun h => hpp h.symm
                simp only [List.filter_cons, hqd, hb, Bool.and_false, Bool.false_eq_true,
                  if_false]
                cases hg : (rest.filter (fun d' =>
                    qualifiesForFastPath d' && (assetPathOf d'.2 == some p))).getLast? with
                | none => simp [lookupStr_objAssign, hpp]
                | some dl => simp

/-- C4: (amended) a difference is classified as Lambda-code-only exactly
when its new value exists and is the tooling-metadata kind, or is the
compute-function kind with every changed property's new value enumerating
only the keys S3Bucket and S3Key (so a property whose new value is a
primitive — a number, say a Timeout — enumerates no keys and passes); and
when every such difference carries a metadata section, the classification
reports eligibility exactly when every difference qualifies (code-only
with a non-empty asset-path annotation), with one map entry per distinct
asset path, each mapping to the logical id of the last qualifying
difference annotated with it. -/
theorem c4_fast_path_classification :
    (∀ c : ResourceChange, changeIsLambdaCode c = true ↔
      ∃ nv, c.newValue = some nv ∧
        (nv.typeName = "AWS::CDK::Metadata" ∨
         (nv.typeName = "AWS::Lambda::Function" ∧
          ∀ kd ∈ c.propertyUpdates, ∃ v, kd.2.newValue = some v ∧
            ∀ k ∈ keysForIn v, k = "S3Bucket" ∨ k = "S3Key"))) ∧
    (∀ differences : List (String × ResourceChange),
      (∀ d ∈ differences, changeIsLambdaCode d.2 = true →
        ∃ nv, d.2.newValue = some nv ∧ nv.metadata ≠ none) →
      ∃ lm, shortcutClassify differences (true, []) = .ok lm ∧
        (lm.1 = true ↔ ∀ d ∈ differences, qualifiesForFastPath d = true) ∧
        ∀ p, lookupStr lm.2 p =
          (match (differences.filter fun d =>
              qualifiesForFastPath d && (assetPathOf d.2 == some p)).getLast? with
           | some d => some d.1
           | none => none)) := by
  constructor
  · intro c
    constructor
    · intro h
      unfold changeIsLambdaCode at h
      cases hnv : c.newValue with
      | none => rw [hnv] at h; simp at h
      | some nv =>
        rw [hnv] at h
        dsimp only at h
        refine ⟨nv, rfl, ?_⟩
        by_cases hm : nv.typeName = "AWS::CDK::Metadata"
        · exact .inl hm
        · right
          have hmb : (nv.typeName == "AWS::CDK::Metadata") = false := by simp [hm]
          rw [hmb] at h
          simp only [Bool.false_eq_true, if_false] at h
          by_cases hl : nv.typeName = "AWS::Lambda::Function"
          · refine ⟨hl, ?_⟩
            have hlb : (nv.typeName != "AWS::Lambda::Function") = false := by simp [hl]
            rw [hlb] at h
            simp only [Bool.false_eq_true, if_false, List.all_eq_true] at h
            intro kd hkd
            have hk := h kd hkd
            cases hv : kd.2.newValue with
            | none => rw [hv] at hk; simp at hk
            | some v =>
              rw [hv] at hk
              refine ⟨v, rfl, ?_⟩
              intro k hkmem
              have := List.all_eq_true.mp hk k hkmem
              simpa using this
          · have hlb : (nv.typeName != "AWS::Lambda::Function") = true := by simp [hl]
            rw [hlb] at h
            simp at h
    · rintro ⟨nv, hnv, hcase⟩
      unfold changeIsLambdaCode
      rw [hnv]
      dsimp only
      rcases hcase with hm | ⟨hl, hprops⟩
      · simp [hm]
      · have hmb : (nv.typeName == "AWS::CDK::Metadata") = false := by simp [hl]
        have hlb : (nv.typeName != "AWS::Lambda::Function") = false := by simp [hl]
        rw [hmb, hlb]
        simp only [Bool.false_eq_true, if_false, List.all_eq_true]
        intro kd hkd
        obtain ⟨v, hv, hkeys⟩ := hprops kd hkd
        rw [hv]
        rw [List.all_eq_true]
        intro k hk
        rcases hkeys k hk with h | h <;> simp [h]
  · intro differences hmeta
    obtain ⟨lm, h1, h2, h3⟩ := shortcutClassify_spec differences hmeta true []
    refine ⟨lm, h1, ?_, ?_⟩
    · rw [h2]
      simp [List.all_eq_true]
    · intro p
      rw [h3 p]
      cases hg : (differences.filter fun d =>
          qualifiesForFastPath d && (assetPathOf d.2 == some p)).getLast? with
      | none => simp [lookupStr]
      | some d => simp

/-- C4 counterexample: a Lambda-function difference touching only the
(non-code-location) Timeout property qualifies as code-only — the
for..in enumeration of its numeric new value yields no keys — and makes
the plan fast-path eligible, against the claimed "only the code-location
properties S3Bucket/S3Key" classification. -/
theorem c4_counterexample_timeout_change :
    changeIsLambdaCode c4TimeoutChange = true ∧
    c4TimeoutChange.propertyUpdates.map Prod.fst = ["Timeout"] ∧
    shortcutClassify [("MyFunction", c4TimeoutChange)] (true, []) =
      .ok (true, [("asset.0123", "MyFunction")]) := by decide

/-- C8: a stack without a pre-uploaded template URL is submitted inline
when its serialization is at or under the 50 KiB threshold; oversized
without a bootstrap bucket it fails with the template-too-large error
naming the bootstrap action; oversized with a bucket it is staged under
the content-hash-derived key cdk/(stack id)/(hash).yml, so for a fixed
stack id the key is a pure function of the serialized content — the same
serialization yields the same key, and any serialization change changes
the key. -/
theorem c8_body_parameter_sizing :
    (∀ (stack : StackArtifact) (env : Environment) (tk : ToolkitInfo),
      stack.stackTemplateAssetObjectUrl = none →
      (toYAML stack.template).length ≤ LARGE_TEMPLATE_SIZE_KB * 1024 →
      makeBodyParameter stack env tk = .ok { TemplateBody := some (toYAML stack.template) }) ∧
    (∀ (stack : StackArtifact) (env : Environment) (tk : ToolkitInfo),
      stack.stackTemplateAssetObjectUrl = none →
      ¬(toYAML stack.template).length ≤ LARGE_TEMPLATE_SIZE_KB * 1024 →
      tk.found = false →
      makeBodyParameter stack env tk =
        .error "Template too large to deploy (\"cdk bootstrap\" is required)") ∧
    (∀ (stack : StackArtifact) (env : Environment) (tk : ToolkitInfo),
      stack.stackTemplateAssetObjectUrl = none →
      ¬(toYAML stack.template).length ≤ LARGE_TEMPLATE_SIZE_KB * 1024 →
      tk.found = true →
      makeBodyParameter stack env tk =
        .ok { TemplateURL := some (tk.bucketUrl ++ "/" ++ ("cdk/" ++ stack.id ++ "/" ++
          contentHash (toYAML stack.template) ++ ".yml")) }) ∧
    (∀ (s₁ s₂ : StackArtifact) (env : Environment) (tk : ToolkitInfo),
      s₁.stackTemplateAssetObjectUrl = none → s₂.stackTemplateAssetObjectUrl = none →
      s₁.id = s₂.id → toYAML s₁.template = toYAML s₂.template →
      makeBodyParameter s₁ env tk = makeBodyParameter s₂ env tk) ∧
    (∀ (s₁ s₂ : StackArtifact) (env : Environment) (tk : ToolkitInfo),
      s₁.stackTemplateAssetObjectUrl = none → s₂.stackTemplateAssetObjectUrl = none →
      s₁.id = s₂.id →
      ¬(toYAML s₁.template).length ≤ LARGE_TEMPLATE_SIZE_KB * 1024 →
      ¬(toYAML s₂.template).length ≤ LARGE_TEMPLATE_SIZE_KB * 1024 →
      tk.found = true →
      toYAML s₁.template ≠ toYAML s₂.template →
      makeBodyParameter s₁ env tk ≠ makeBodyParameter s₂ env tk) := by
  refine ⟨?_, ?_, ?_, ?_, ?_⟩
  · intro stack env tk hurl hlen
    simp [makeBodyParameter, hurl, hlen]
  · intro stack env tk hurl hlen hfound
    simp [makeBodyParameter, hurl, hlen, hfound]
  · intro stack env tk hurl hlen hfound
    simp [makeBodyParameter, hurl, hlen, hfound]
  · intro s₁ s₂ env tk h₁ h₂ hid hser
    simp only [makeBodyParameter, h₁, h₂, hid, hser]
  · intro s₁ s₂ env tk h₁ h₂ hid hlen₁ hlen₂ hfound hne heq
    simp only [makeBodyParameter, h₁, h₂, hlen₁, hlen₂, hfound, if_false, Bool.not_true,
      Bool.false_eq_true, contentHash] at heq
    rw [hid] at heq
    simp only [Except.ok.injEq, TemplateBodyParameter.mk.injEq, Option.some.injEq] at heq
    have hkey := heq.2
    have hd := congrArg String.data hkey
    simp only [String.data_append, List.append_assoc] at hd
    have hd₁ := List.append_cancel_left hd
    have hd₂ := List.append_cancel_left hd₁
    have hd₃ := List.append_cancel_left hd₂
    have hd₄ := List.append_cancel_left hd₃
    have hd₅ := List.append_cancel_left hd₄
    have hfin := List.append_cancel_right hd₅
    exact hne (String.ext hfin)

/-- On the non-existent sentinel state the skip decision always reports
changes (through the forced-deploy or the no-existing-stack branch). -/
theorem canSkipDeploy_doesNotExist (options : DeployStackOptions) (n : String)
    (pc s : Bool) (differences : List (String × ResourceChange)) :
    canSkipDeploy options (CloudFormationStack.doesNotExist n) pc s differences =
      .ok { hasChanges := true } := by
  unfold canSkipDeploy CloudFormationStack.doesNotExist
  cases options.force <;> simp

/-- A run of the fast-path update loop either throws, or succeeds having
only appended non-state-fetch calls to the trace, with one
updateFunctionCode call per entry carrying exactly the entry's resolved
coordinates. -/
theorem shortcutUpdateLoop_run (oracle : RemoteOracle) (template : JsonVal)
    (stackEnv : Environment) (entries : List (String × String)) (calls₀ : List RemoteCall) :
    (∃ e calls₁, (shortcutUpdateLoop oracle template stackEnv entries).run calls₀ =
        .error e calls₁) ∨
    (∃ calls₁, (shortcutUpdateLoop oracle template stackEnv entries).run calls₀ =
        .ok () calls₁ ∧
      (∃ suffix, calls₁ = calls₀ ++ suffix ∧ ∀ c ∈ suffix, c.isStackStateFetch = false) ∧
      ∀ entry ∈ entries, ∃ bk,
        resolveLambdaCode oracle.stackParamValues template stackEnv entry.1 entry.2 = .ok bk ∧
        RemoteCall.updateFunctionCode (oracle.physicalFunctionName entry.2) bk.1 bk.2 ∈ calls₁) := by
  induction entries generalizing calls₀ with
  | nil =>
    right
    refine ⟨calls₀, rfl, ⟨[], by simp⟩, by simp⟩
  | cons entry rest ih =>
    cases hres : resolveLambdaCode oracle.stackParamValues template stackEnv entry.1 entry.2 with
    | error e =>
      left
      refine ⟨e, calls₀ ++ [.describeStackResources entry.2], ?_⟩
      simp [shortcutUpdateLoop, hres, EStateM.run, bind, EStateM.bind, modify, modifyGet,
        MonadStateOf.modifyGet, EStateM.modifyGet, recordCall, throw, throwThe,
        MonadExceptOf.throw, EStateM.throw]
    | ok bk =>
      have hstep : (shortcutUpdateLoop oracle template stackEnv (entry :: rest)).run calls₀ =
          (shortcutUpdateLoop oracle template stackEnv rest).run
            (calls₀ ++ [.describeStackResources entry.2,
              .updateFunctionCode (oracle.physicalFunctionName entry.2) bk.1 bk.2]) := by
        simp [shortcutUpdateLoop, hres, EStateM.run, bind, EStateM.bind, modify, modifyGet,
          MonadStateOf.modifyGet, EStateM.modifyGet, recordCall]
      rcases ih (calls₀ ++ [.describeStackResources entry.2,
          .updateFunctionCode (oracle.physicalFunctionName entry.2) bk.1 bk.2]) with
        ⟨e, calls₁, h⟩ | ⟨calls₁, hrun, ⟨suffix, hsuf, hfetch⟩, hmem⟩
      · left
        exact ⟨e, calls₁, by rw [hstep]; exact h⟩
      · right
        refine ⟨calls₁, by rw [hstep]; exact hrun, ?_, ?_⟩
        · refine ⟨[.describeStackResources entry.2,
            .updateFunctionCode (oracle.physicalFunctionName entry.2) bk.1 bk.2] ++ suffix,
            by rw [hsuf, List.append_assoc], ?_⟩
          intro c hc
          rcases List.mem_append.mp hc with h | h
          · simp only [List.mem_cons, List.not_mem_nil, or_false] at h
            rcases h with h | h <;> subst h <;> simp [RemoteCall.isStackStateFetch]
          · exact hfetch c h
        · intro e he
          rcases List.mem_cons.mp he with h | h
          · subst h
            refine ⟨bk, hres, ?_⟩
            rw [hsuf]
            simp
          · exact hmem e h

/-- On the shortcut path with a lambda-only skip decision, the whole run
is the update loop run from the lookup-and-publish prefix, returning the
pre-update snapshot's outputs and stack id on success. -/
theorem deployStack_shortcut_lambdaOnly (options : DeployStackOptions) (oracle : RemoteOracle)
    (r : SkipDeployResult)
    (hshortcut : options.shortcut = true)
    (hcf : StackStatus.isCreationFailure oracle.lookupResult.statusName = false)
    (hskip : canSkipDeploy options oracle.lookupResult oracle.parameterChanges options.shortcut
      oracle.differences = .ok r)
    (hhc : r.hasChanges = true)
    (hlo : r.lambdaOnly = some true) :
    deployStack options oracle =
      match (shortcutUpdateLoop oracle options.stack.template options.resolvedEnvironment
          (r.modifiedAssetPaths.getD [])).run
          [.describeStacks (options.deployName.getD options.stack.stackName),
           .publishAssets (some ((r.modifiedAssetPaths.getD []).map
             fun kv => replaceFirst kv.1 "asset." ""))] with
      | .ok _ calls => (.ok { noOp := false, outputs := oracle.lookupResult.outputs,
                              stackArn := oracle.lookupResult.stackId }, calls)
      | .error e calls => (.error e, calls) := by
  rw [hshortcut] at hskip
  unfold deployStack deployStackM
  simp [recordCall, hcf, hskip, hshortcut, hhc, hlo, EStateM.run, bind, EStateM.bind,
    modify, modifyGet, MonadStateOf.modifyGet, EStateM.modifyGet, pure, EStateM.pure,
    throw, throwThe, MonadExceptOf.throw, EStateM.throw]
  cases hloop : shortcutUpdateLoop oracle options.stack.template options.resolvedEnvironment
      (r.modifiedAssetPaths.getD [])
      [.describeStacks (options.deployName.getD options.stack.stackName),
       .publishAssets (some ((r.modifiedAssetPaths.getD []).map
         fun kv => replaceFirst kv.1 "asset." ""))] with
  | ok u calls => rfl
  | error e calls => rfl

/-- C10: when the fast path is taken and the run succeeds, the result is
noOp=false with the outputs and stack id of the remote snapshot fetched
before any mutation, and the trace holds exactly one stack-state fetch —
the initial lookup; the remote state is never re-fetched after the code
updates. -/
theorem c10_fast_path_returns_pre_update_snapshot (options : DeployStackOptions)
    (oracle : RemoteOracle) (r : SkipDeployResult) (res : DeployStackResult)
    (hshortcut : options.shortcut = true)
    (hcf : StackStatus.isCreationFailure oracle.lookupResult.statusName = false)
    (hskip : canSkipDeploy options oracle.lookupResult oracle.parameterChanges options.shortcut
      oracle.differences = .ok r)
    (hhc : r.hasChanges = true)
    (hlo : r.lambdaOnly = some true)
    (hok : (deployStack options oracle).1 = .ok res) :
    res = { noOp := false, outputs := oracle.lookupResult.outputs,
            stackArn := oracle.lookupResult.stackId } ∧
    (deployStack options oracle).2.filter RemoteCall.isStackStateFetch =
      [.describeStacks (options.deployName.getD options.stack.stackName)] := by
  have hrun := deployStack_shortcut_lambdaOnly options oracle r hshortcut hcf hskip hhc hlo
  rcases shortcutUpdateLoop_run oracle options.stack.template options.resolvedEnvironment
      (r.modifiedAssetPaths.getD [])
      [.describeStacks (options.deployName.getD options.stack.stackName),
       .publishAssets (some ((r.modifiedAssetPaths.getD []).map
         fun kv => replaceFirst kv.1 "asset." ""))] with
    ⟨e, calls₁, herr⟩ | ⟨calls₁, hokr, ⟨suffix, hsuf, hfetch⟩, hmem⟩
  · rw [herr] at hrun
    rw [hrun] at hok
    simp at hok
  · rw [hokr] at hrun
    rw [hrun] at hok ⊢
    simp only at hok
    have hres : res =
        { noOp := false, outputs := oracle.lookupResult.outputs,
          stackArn := oracle.lookupResult.stackId } :=
      (Except.ok.inj hok).symm
    refine ⟨hres, ?_⟩
    have hsufnil : suffix.filter RemoteCall.isStackStateFetch = [] :=
      List.filter_eq_nil_iff.mpr (fun c hc => by simp [hfetch c hc])
    simp only [hsuf, List.filter_append, hsufnil, List.append_nil]
    simp [RemoteCall.isStackStateFetch]

/-- C5: (amended) on a successful fast-path run, no qualifying entry is
ever silently skipped: each one gets its updateFunctionCode call, with
exactly the coordinates the two-tier resolution produced — which may be
empty when neither tier resolved them; the orchestrator raises no
resolution error of its own before the call. -/
theorem c5_update_call_per_entry (options : DeployStackOptions) (oracle : RemoteOracle)
    (r : SkipDeployResult) (res : DeployStackResult) (entry : String × String)
    (hshortcut : options.shortcut = true)
    (hcf : StackStatus.isCreationFailure oracle.lookupResult.statusName = false)
    (hskip : canSkipDeploy options oracle.lookupResult oracle.parameterChanges options.shortcut
      oracle.differences = .ok r)
    (hhc : r.hasChanges = true)
    (hlo : r.lambdaOnly = some true)
    (hok : (deployStack options oracle).1 = .ok res)
    (hentry : entry ∈ r.modifiedAssetPaths.getD []) :
    ∃ bk, resolveLambdaCode oracle.stackParamValues options.stack.template
        options.resolvedEnvironment entry.1 entry.2 = .ok bk ∧
      RemoteCall.updateFunctionCode (oracle.physicalFunctionName entry.2) bk.1 bk.2 ∈
        (deployStack options oracle).2 := by
  have hrun := deployStack_shortcut_lambdaOnly options oracle r hshortcut hcf hskip hhc hlo
  rcases shortcutUpdateLoop_run oracle options.stack.template options.resolvedEnvironment
      (r.modifiedAssetPaths.getD [])
      [.describeStacks (options.deployName.getD options.stack.stackName),
       .publishAssets (some ((r.modifiedAssetPaths.getD []).map
         fun kv => replaceFirst kv.1 "asset." ""))] with
    ⟨e, calls₁, herr⟩ | ⟨calls₁, hokr, hext, hmem⟩
  · rw [herr] at hrun
    rw [hrun] at hok
    simp at hok
  · rw [hokr] at hrun
    rw [hrun]
    exact hmem entry hentry

/-- C5 counterexample: a qualifying code change whose parameters resolve
nothing and whose template code location names a bucket but no key does
not fail: the run succeeds and invokes the remote replace-code call with
an empty object key. -/
theorem c5_counterexample_missing_key_still_called :
    deployStack c5Options c5Oracle =
      (.ok { noOp := false, outputs := [("Endpoint", "https://x")],
             stackArn := "arn:mystack/1111" },
       [.describeStacks "mystack", .publishAssets (some ["777"]),
        .describeStackResources "Fn", .updateFunctionCode "Fn" "mybucket" ""]) ∧
    RemoteCall.updateFunctionCode "Fn" "mybucket" "" ∈ (deployStack c5Options c5Oracle).2 := by
  refine ⟨by decide, ?_⟩
  rw [(by decide : (deployStack c5Options c5Oracle).2 =
    [.describeStacks "mystack", .publishAssets (some ["777"]),
     .describeStackResources "Fn", .updateFunctionCode "Fn" "mybucket" ""])]
  decide

/-- C5 witness: the per-entry update call at the concrete missing-key
configuration. -/
theorem c5_witness :
    ∃ bk, resolveLambdaCode c5Oracle.stackParamValues c5Options.stack.template
        c5Options.resolvedEnvironment "asset.777" "Fn" = .ok bk ∧
      RemoteCall.updateFunctionCode (c5Oracle.physicalFunctionName "Fn") bk.1 bk.2 ∈
        (deployStack c5Options c5Oracle).2 :=
  c5_update_call_per_entry c5Options c5Oracle
    { hasChanges := true, lambdaOnly := some true,
      modifiedAssetPaths := some [("asset.777", "Fn")] }
    { noOp := false, outputs := [("Endpoint", "https://x")], stackArn := "arn:mystack/1111" }
    ("asset.777", "Fn") rfl rfl (by decide) rfl rfl (by decide) (by decide)

/-- C10 witness: the pre-update snapshot result at the concrete fast-path
configuration. -/
theorem c10_witness :
    ({ noOp := false, outputs := [("Endpoint", "https://x")],
       stackArn := "arn:mystack/1111" } : DeployStackResult) =
      { noOp := false, outputs := c5Oracle.lookupResult.outputs,
        stackArn := c5Oracle.lookupResult.stackId } ∧
    (deployStack c5Options c5Oracle).2.filter RemoteCall.isStackStateFetch =
      [.describeStacks (c5Options.deployName.getD c5Options.stack.stackName)] :=
  c10_fast_path_returns_pre_update_snapshot c5Options c5Oracle
    { hasChanges := true, lambdaOnly := some true,
      modifiedAssetPaths := some [("asset.777", "Fn")] }
    { noOp := false, outputs := [("Endpoint", "https://x")], stackArn := "arn:mystack/1111" }
    rfl rfl (by decide) rfl rfl (by decide)

/-- C6: (amended) with the shortcut requested and the skip decision
reporting changes through a branch other than the template-difference
branch (its lambdaOnly field unset), deployStack neither runs the fast
path nor falls back to the change-set path: it returns noOp=true with the
post-cleanup snapshot's outputs and stack id, and the only mutation ever
performed is the creation-failure cleanup delete (none at all when the
remote status was not a creation failure). -/
theorem c6_shortcut_non_lambda_noop :
    (∀ (options : DeployStackOptions) (oracle : RemoteOracle),
      options.shortcut = true →
      StackStatus.isCreationFailure oracle.lookupResult.statusName = false →
      canSkipDeploy options oracle.lookupResult oracle.parameterChanges true
        oracle.differences = .ok { hasChanges := true } →
      deployStack options oracle =
        (.ok { noOp := true, outputs := oracle.lookupResult.outputs,
               stackArn := oracle.lookupResult.stackId },
         [.describeStacks (options.deployName.getD options.stack.stackName)])) ∧
    (∀ (options : DeployStackOptions) (oracle : RemoteOracle),
      options.shortcut = true →
      StackStatus.isCreationFailure oracle.lookupResult.statusName = true →
      (∀ d, oracle.waitForDeleteResult = some d → d.statusName = "DELETE_COMPLETE") →
      deployStack options oracle =
        (.ok { noOp := true, outputs := [], stackArn := "" },
         [.describeStacks (options.deployName.getD options.stack.stackName),
          .deleteStack (options.deployName.getD options.stack.stackName),
          .waitForStackDelete (options.deployName.getD options.stack.stackName)])) := by
  constructor
  · intro options oracle hshortcut hcf hskip
    unfold deployStack deployStackM
    simp [recordCall, hcf, hskip, hshortcut, EStateM.run, bind, EStateM.bind,
      modify, modifyGet, MonadStateOf.modifyGet, EStateM.modifyGet, pure, EStateM.pure,
      throw, throwThe, MonadExceptOf.throw, EStateM.throw]
  · intro options oracle hshortcut hcf hdel
    have hskip := canSkipDeploy_doesNotExist options
      (options.deployName.getD options.stack.stackName) oracle.parameterChanges true
      oracle.differences
    simp only [CloudFormationStack.doesNotExist] at hskip
    unfold deployStack deployStackM
    cases hw : oracle.waitForDeleteResult with
    | none =>
      simp [recordCall, hcf, hskip, hshortcut, hw, EStateM.run, bind, EStateM.bind,
        modify, modifyGet, MonadStateOf.modifyGet, EStateM.modifyGet, pure, EStateM.pure,
        throw, throwThe, MonadExceptOf.throw, EStateM.throw, CloudFormationStack.doesNotExist]
    | some d =>
      have hd : d.statusName = "DELETE_COMPLETE" := hdel d hw
      simp [recordCall, hcf, hskip, hshortcut, hw, hd, EStateM.run, bind, EStateM.bind,
        modify, modifyGet, MonadStateOf.modifyGet, EStateM.modifyGet, pure, EStateM.pure,
        throw, throwThe, MonadExceptOf.throw, EStateM.throw, CloudFormationStack.doesNotExist]

/-- C6 counterexample: a remote stack in creation-failure status with the
shortcut requested: the skip decision reports changes through the
no-existing-stack branch, deployStack returns noOp=true — yet its trace
contains a mutating call, the cleanup deleteStack. -/
theorem c6_counterexample_cleanup_mutation :
    c6Options.shortcut = true ∧
    canSkipDeploy c6Options (CloudFormationStack.doesNotExist "mystack") false true [] =
      .ok { hasChanges := true } ∧
    deployStack c6Options c6Oracle =
      (.ok { noOp := true, outputs := [], stackArn := "" },
       [.describeStacks "mystack", .deleteStack "mystack", .waitForStackDelete "mystack"]) ∧
    (deployStack c6Options c6Oracle).2.any RemoteCall.isMutating = true := by
  refine ⟨rfl, by decide, by decide, by decide⟩

/-- C7: a creation-failed remote stack is deleted first and the delete
awaited; a post-delete terminal state other than DELETE_COMPLETE fails the
run with the stack-delete-failed error after exactly the lookup, delete
and wait calls; otherwise (shortcut off, body parameter available) the run
proceeds as if no stack existed and the subsequent change-set is created
with ChangeSetType=CREATE, right after the delete, wait and publish
calls. -/
theorem c7_creation_failure_cleanup :
    (∀ (options : DeployStackOptions) (oracle : RemoteOracle) (d : CloudFormationStack),
      StackStatus.isCreationFailure oracle.lookupResult.statusName = true →
      oracle.waitForDeleteResult = some d →
      d.statusName ≠ "DELETE_COMPLETE" →
      deployStack options oracle =
        (.error ("Failed deleting stack " ++ (options.deployName.getD options.stack.stackName) ++
           " that had previously failed creation (current state: " ++ d.statusName ++ ")"),
         [.describeStacks (options.deployName.getD options.stack.stackName),
          .deleteStack (options.deployName.getD options.stack.stackName),
          .waitForStackDelete (options.deployName.getD options.stack.stackName)])) ∧
    (∀ (options : DeployStackOptions) (oracle : RemoteOracle) (bp : TemplateBodyParameter),
      StackStatus.isCreationFailure oracle.lookupResult.statusName = true →
      (∀ d, oracle.waitForDeleteResult = some d → d.statusName = "DELETE_COMPLETE") →
      options.shortcut = false →
      makeBodyParameter options.stack options.resolvedEnvironment options.toolkitInfo = .ok bp →
      List.IsPrefix
        [.describeStacks (options.deployName.getD options.stack.stackName),
         .deleteStack (options.deployName.getD options.stack.stackName),
         .waitForStackDelete (options.deployName.getD options.stack.stackName),
         .publishAssets none,
         .createChangeSet ("CDK-" ++ oracle.executionId) "CREATE" bp]
        (deployStack options oracle).2) := by
  constructor
  · intro options oracle d hcf hw hne
    have hnb : (d.statusName != "DELETE_COMPLETE") = true := by simpa [bne_iff_ne] using hne
    unfold deployStack deployStackM
    simp [recordCall, hcf, hw, hnb, EStateM.run, bind, EStateM.bind, modify, modifyGet,
      MonadStateOf.modifyGet, EStateM.modifyGet, pure, EStateM.pure, throw, throwThe,
      MonadExceptOf.throw, EStateM.throw]
  · intro options oracle bp hcf hdel hshortcut hbody
    have hskip := canSkipDeploy_doesNotExist options
      (options.deployName.getD options.stack.stackName) oracle.parameterChanges false
      oracle.differences
    have hskip' := hskip
    simp only [CloudFormationStack.doesNotExist] at hskip'
    unfold deployStack deployStackM
    cases hw : oracle.waitForDeleteResult with
    | none =>
      simp [recordCall, hcf, hskip, hskip', hshortcut, hw, hbody, EStateM.run, bind,
        EStateM.bind, modify, modifyGet, MonadStateOf.modifyGet, EStateM.modifyGet, pure,
        EStateM.pure, throw, throwThe, MonadExceptOf.throw, EStateM.throw,
        changeSetHasNoChanges, CloudFormationStack.doesNotExist]
      cases htp : options.stack.terminationProtection <;>
        rcases hcs : oracle.changeSetChanges with _ | ⟨c0, cs⟩ <;>
        cases hex : options.execute.getD true <;>
        cases hwd : oracle.waitForDeployResult <;>
        simp [htp, hcs, hex, hwd] <;>
        exact ⟨_, rfl⟩
    | some d =>
      have hd : d.statusName = "DELETE_COMPLETE" := hdel d hw
      simp [recordCall, hcf, hskip, hskip', hshortcut, hw, hd, hbody, EStateM.run, bind,
        EStateM.bind, modify, modifyGet, MonadStateOf.modifyGet, EStateM.modifyGet, pure,
        EStateM.pure, throw, throwThe, MonadExceptOf.throw, EStateM.throw,
        changeSetHasNoChanges, CloudFormationStack.doesNotExist]
      cases htp : options.stack.terminationProtection <;>
        rcases hcs : oracle.changeSetChanges with _ | ⟨c0, cs⟩ <;>
        cases hex : options.execute.getD true <;>
        cases hwd : oracle.waitForDeployResult <;>
        simp [htp, hcs, hex, hwd] <;>
        exact ⟨_, rfl⟩

/-- C2: whenever a deployment reaches change-set computation (no shortcut,
skip decision reports changes, body parameter available) and the computed
change list is empty, the orchestrator issues the delete-change-set call,
never issues an execute-change-set call, and returns noOp=true carrying
the pre-attempt remote outputs and — under the control-plane contract that
change-set creation reports the id of the very stack it targets — the
pre-attempt stack id. -/
theorem c2_empty_change_set_deleted_not_executed (options : DeployStackOptions)
    (oracle : RemoteOracle) (r : SkipDeployResult) (bp : TemplateBodyParameter)
    (hcf : StackStatus.isCreationFailure oracle.lookupResult.statusName = false)
    (hshortcut : options.shortcut = false)
    (hskip : canSkipDeploy options oracle.lookupResult oracle.parameterChanges options.shortcut
      oracle.differences = .ok r)
    (hhc : r.hasChanges = true)
    (hbody : makeBodyParameter options.stack options.resolvedEnvironment options.toolkitInfo =
      .ok bp)
    (hempty : oracle.changeSetChanges = [])
    (hcsid : oracle.changeSetStackId = oracle.lookupResult.stackId) :
    (deployStack options oracle).1 =
      .ok { noOp := true, outputs := oracle.lookupResult.outputs,
            stackArn := oracle.lookupResult.stackId } ∧
    RemoteCall.deleteChangeSet ("CDK-" ++ oracle.executionId) ∈ (deployStack options oracle).2 ∧
    ∀ n, RemoteCall.executeChangeSet n ∉ (deployStack options oracle).2 := by
  rw [hshortcut] at hskip
  unfold deployStack deployStackM
  simp [recordCall, hcf, hskip, hshortcut, hhc, hbody, hempty, hcsid, EStateM.run, bind,
    EStateM.bind, modify, modifyGet, MonadStateOf.modifyGet, EStateM.modifyGet, pure,
    EStateM.pure, throw, throwThe, MonadExceptOf.throw, EStateM.throw, changeSetHasNoChanges]
  by_cases htp : oracle.lookupResult.terminationProtection =
      options.stack.terminationProtection <;>
    simp [htp, EStateM.run, bind, EStateM.bind, modify, modifyGet, MonadStateOf.modifyGet,
      EStateM.modifyGet, pure, EStateM.pure]

/-- C2 witness: the empty-change-set scenario at a concrete forced-deploy
configuration. -/
theorem c2_witness :
    (deployStack c2Options c2Oracle).1 =
      .ok { noOp := true, outputs := c2Oracle.lookupResult.outputs,
            stackArn := c2Oracle.lookupResult.stackId } ∧
    RemoteCall.deleteChangeSet ("CDK-" ++ c2Oracle.executionId) ∈
      (deployStack c2Options c2Oracle).2 ∧
    ∀ n, RemoteCall.executeChangeSet n ∉ (deployStack c2Options c2Oracle).2 :=
  c2_empty_change_set_deleted_not_executed c2Options c2Oracle { hasChanges := true }
    { TemplateBody := some (toYAML sampleTemplate) } rfl rfl (by decide) rfl (by decide)
    rfl rfl
